import Mathlib

/-!
A shallow embedding of `dataklasses.py`, a structural method synthesis
engine: it generates `__init__`, `__new__`, `__repr__`, `__eq__`,
`__iter__` and `__hash__` methods for record types from an ordered list
of field names, using per-(kind, argument) cached code templates that are
specialized to a record type by renaming placeholder identifiers.

The embedding models:
  * runtime values and their textual representation (`Value`, `reprValue`);
  * the constructor signature built by `param_list` and Python's
    positional/keyword argument binding for such a signature (`bindArgs`);
  * the synthesized methods' behavior on instances (`dk_eq`, `dk_hash`,
    `dk_repr_keyword`, `dk_repr_positional`, `dk_init`, `dk_new`,
    `frozen_setattr`, `frozen_delattr`);
  * the memoizing template cache produced by `codegen`'s `lru_cache`
    (`cacheCall`), idealized as unbounded memoization on the full
    argument tuple;
  * the bytecode patcher `patch_fields` as an allocation in a store of
    function objects (`patchFunc`, `patch_fields`);
  * the synthesizer `dataklass` as a pure function from a class
    description and options to a synthesized class or a configuration
    error.
-/

/-- Runtime values carried by record fields (a representative fragment of
Python values with decidable equality). -/
inductive Value where
  | int (n : Int)
  | str (s : String)
  | none
deriving DecidableEq

/-- Model of Python `repr` on the value fragment: ints render in decimal,
strings with single quotes, `None` as its name. -/
def reprValue : Value → String
  | Value.int n => toString n
  | Value.str s => "'" ++ s ++ "'"
  | Value.none => "None"

/-- Model of Python `sep.join(parts)`. -/
def pyJoin (sep : String) : List String → String
  | [] => ""
  | [x] => x
  | x :: y :: xs => x ++ sep ++ pyJoin sep (y :: xs)

/-- One parameter of a generated method signature. `pos` parameters come
before the `*` marker (positional-or-keyword); `kwOnly` parameters come
after it (keyword-only). Each carries an optional default value. -/
inductive Param where
  | pos (name : String) (default : Option Value)
  | kwOnly (name : String) (default : Option Value)
deriving DecidableEq

def Param.name : Param → String
  | Param.pos n _ => n
  | Param.kwOnly n _ => n

def Param.default : Param → Option Value
  | Param.pos _ d => d
  | Param.kwOnly _ d => d

def Param.isPos : Param → Bool
  | Param.pos _ _ => true
  | Param.kwOnly _ _ => false

/-- The loop body of `param_list` in the source: walk the fields in
declaration order carrying `seen_default` and `kw_only` flags.  A field
with a default is emitted with that default (after the `*` marker it is
keyword-only); a field without a default that follows a defaulted field
triggers the `*` marker (`kw_only := true`) and is emitted keyword-only;
otherwise it is emitted as a plain parameter in the current section. -/
def param_list_aux (defaults : List (String × Value)) :
    List String → Bool → Bool → List Param
  | [], _, _ => []
  | name :: rest, seen_default, kw_only =>
    match defaults.lookup name with
    | some d =>
      (if kw_only then Param.kwOnly name (some d) else Param.pos name (some d))
        :: param_list_aux defaults rest true kw_only
    | Option.none =>
      if seen_default && !kw_only then
        Param.kwOnly name Option.none :: param_list_aux defaults rest seen_default true
      else
        (if kw_only then Param.kwOnly name Option.none else Param.pos name Option.none)
          :: param_list_aux defaults rest seen_default kw_only

/-- `param_list(fields, defaults)` from the source, as the structured
signature it denotes (the source renders it as Python parameter text;
the `*` separator is encoded here by the `Param.kwOnly` section). -/
def param_list (fields : List String) (defaults : List (String × Value)) : List Param :=
  param_list_aux defaults fields false false

/-- Whether the signature marks `n` as a keyword-only parameter. -/
def isKwOnly : List Param → String → Bool
  | [], _ => false
  | Param.kwOnly m _ :: ps, n => m == n || isKwOnly ps n
  | Param.pos _ _ :: ps, n => isKwOnly ps n

/-- Python's static rule on a `def` signature: before the `*` marker, a
parameter without a default may not follow one with a default, and no
positional section may resume after the `*` marker.  A signature failing
this is a syntax error at compile time. -/
def validSignatureGo : List Param → Bool → Bool
  | [], _ => true
  | Param.pos _ Option.none :: rest, seen => if seen then false else validSignatureGo rest seen
  | Param.pos _ (some _) :: rest, _ => validSignatureGo rest true
  | Param.kwOnly _ _ :: rest, _ => rest.all fun p => !(Param.isPos p)

def validSignature (ps : List Param) : Bool :=
  validSignatureGo ps false

/-- Bind one call's arguments against a signature, walking the parameters
in order; `i` counts the positional-or-keyword parameters already seen,
so the `i`-th `pos` parameter consumes the `i`-th positional argument.
Models CPython argument binding for signatures of the shape
`param_list` produces. -/
def bindArgsAux (posArgs : List Value) (kwArgs : List (String × Value)) :
    List Param → Nat → Except String (List (String × Value))
  | [], _ => Except.ok []
  | Param.pos n d :: rest, i =>
    let v : Except String Value :=
      if h : i < posArgs.length then
        match kwArgs.lookup n with
        | some _ => Except.error ("got multiple values for argument " ++ n)
        | Option.none => Except.ok (posArgs.get ⟨i, h⟩)
      else
        match kwArgs.lookup n, d with
        | some v, _ => Except.ok v
        | Option.none, some dv => Except.ok dv
        | Option.none, Option.none =>
          Except.error ("missing required positional argument: " ++ n)
    match v with
    | Except.error e => Except.error e
    | Except.ok v =>
      match bindArgsAux posArgs kwArgs rest (i + 1) with
      | Except.error e => Except.error e
      | Except.ok tl => Except.ok ((n, v) :: tl)
  | Param.kwOnly n d :: rest, i =>
    let v : Except String Value :=
      match kwArgs.lookup n, d with
      | some v, _ => Except.ok v
      | Option.none, some dv => Except.ok dv
      | Option.none, Option.none =>
        Except.error ("missing required keyword-only argument: " ++ n)
    match v with
    | Except.error e => Except.error e
    | Except.ok v =>
      match bindArgsAux posArgs kwArgs rest i with
      | Except.error e => Except.error e
      | Except.ok tl => Except.ok ((n, v) :: tl)

/-- Bind positional and keyword arguments to a signature, producing the
parameter-name/value pairs in declaration order, or a `TypeError`-style
message.  Surplus positional arguments and unknown keyword names are
rejected up front, as in CPython. -/
def bindArgs (params : List Param) (posArgs : List Value)
    (kwArgs : List (String × Value)) : Except String (List (String × Value)) :=
  if posArgs.length > (params.filter Param.isPos).length then
    Except.error "too many positional arguments"
  else if !(kwArgs.all fun kv => params.any fun p => Param.name p == kv.1) then
    Except.error "got an unexpected keyword argument"
  else
    bindArgsAux posArgs kwArgs params 0

/-- A record instance: its concrete class (identified by name), its field
names in declaration order, the field values in the same order, and an
object identity used by the default (hash-off) hashing behavior. -/
structure Instance where
  className : String
  fieldNames : List String
  values : List Value
  objId : Nat
deriving DecidableEq

/-- Result of Python `__eq__`: a boolean, or `NotImplemented` when the
operand types make the comparison undefined. -/
inductive EqResult where
  | result (b : Bool)
  | notImplemented
deriving DecidableEq

/-- The synthesized `__eq__`: when both operands have the same concrete
class, compare the ordered tuples of field values; otherwise return
`NotImplemented`. -/
def dk_eq (self other : Instance) : EqResult :=
  if self.className = other.className then
    EqResult.result (decide (self.values = other.values))
  else
    EqResult.notImplemented

/-- Model of Python `hash` on a single value (a fixed deterministic
function; only its determinism matters here). -/
def pyHashValue : Value → Int
  | Value.int n => n
  | Value.str s => s.foldl (fun h c => h * 31 + Int.ofNat c.toNat) 7
  | Value.none => 5740354900026072187

/-- Model of CPython's ordered tuple hash: a fold combining the element
hashes left to right. -/
def tupleHash (vs : List Value) : Int :=
  vs.foldl (fun h v => h * 1000003 + pyHashValue v) 3430008

/-- The synthesized `__hash__`: the hash of the ordered tuple of the
instance's field values. -/
def dk_hash (self : Instance) : Int :=
  tupleHash self.values

/-- Default `object.__hash__` (in force when the `hash` option is off):
derived from the object's identity, not from its field values. -/
def object_hash (self : Instance) : Int :=
  Int.ofNat self.objId

/-- The synthesized keyword-mode `__repr__`: the class name, then each
field name paired with the `repr` of its value (`__match_args__` zipped
with the tuple of field values), comma-joined in parentheses. -/
def dk_repr_keyword (self : Instance) : String :=
  self.className ++ "(" ++
    pyJoin ", " ((self.fieldNames.zip self.values).map fun nv =>
      nv.1 ++ "=" ++ reprValue nv.2) ++ ")"

/-- The synthesized bare-positional `__repr__`: the class name, then the
`repr` of each field value in declaration order, comma-joined in
parentheses. -/
def dk_repr_positional (self : Instance) : String :=
  self.className ++ "(" ++ pyJoin ", " (self.values.map reprValue) ++ ")"

/-- The synthesized `__init__` semantics: bind the call's arguments
against the `param_list` signature and assign each field, in declaration
order, on a fresh instance. -/
def dk_init (className : String) (fields : List String)
    (defaults : List (String × Value)) (objId : Nat) (posArgs : List Value)
    (kwArgs : List (String × Value)) : Except String Instance :=
  match bindArgs (param_list fields defaults) posArgs kwArgs with
  | Except.error e => Except.error e
  | Except.ok bound =>
    Except.ok ⟨className, bound.map Prod.fst, bound.map Prod.snd, objId⟩

/-- The synthesized `__new__` semantics for frozen records: allocate the
instance and set every field through `object.__setattr__`, which is not
routed through the class's attribute-write guard. Binding is the same
`param_list` signature as `__init__`. -/
def dk_new (className : String) (fields : List String)
    (defaults : List (String × Value)) (objId : Nat) (posArgs : List Value)
    (kwArgs : List (String × Value)) : Except String Instance :=
  match bindArgs (param_list fields defaults) posArgs kwArgs with
  | Except.error e => Except.error e
  | Except.ok bound =>
    Except.ok ⟨className, bound.map Prod.fst, bound.map Prod.snd, objId⟩

/-- `frozen_setattr` from the source: every attribute write on a frozen
instance raises a `TypeError` naming the attribute; no modified instance
is ever produced. -/
def frozen_setattr (self : Instance) (name : String) (value : Value) :
    Except String Instance :=
  Except.error ("dataklass(frozen=True) cannot set attribute " ++ name)

/-- `frozen_delattr` from the source: every attribute delete on a frozen
instance raises a `TypeError` naming the attribute. -/
def frozen_delattr (self : Instance) (name : String) : Except String Instance :=
  Except.error ("dataklass(frozen=True) cannot delete attribute " ++ name)

/-- Ordinary attribute read on an instance: look the name up among the
instance's fields (frozen records install no read interceptor, so reads
take this path unconditionally). -/
def py_getattr (self : Instance) (name : String) : Except String Value :=
  match (self.fieldNames.zip self.values).lookup name with
  | some v => Except.ok v
  | Option.none => Except.error ("no attribute " ++ name)

/-- The method kinds the engine synthesizes. -/
inductive MethodKind where
  | init
  | new
  | reprPositional
  | reprKeyword
  | eq
  | iter
  | hash
deriving DecidableEq

/-- The full memoization key of a `codegen`-wrapped maker: in the source,
each maker `make__<kind>` is a separate `lru_cache`d function applied to
`(num_fields, *args)`, so the key is the method kind together with the
whole argument tuple — the field count plus, for `__init__`/`__new__`,
the tuple of (placeholder, default value) pairs. -/
structure CacheKey where
  kind : MethodKind
  numFields : Nat
  extraArgs : List (String × Value)
deriving DecidableEq

/-- The cache's state: the keys compiled so far, each mapped to the
identity of its compiled template object, plus a fresh-identity counter. -/
structure CacheState where
  entries : List (CacheKey × Nat)
  nextId : Nat
deriving DecidableEq

/-- The empty cache at process start. -/
def initCache : CacheState := ⟨[], 0⟩

/-- One call of a `codegen`-wrapped maker, idealized as unbounded
memoization on the full key: on a hit, return the identical cached
template object and compile nothing; on a miss, compile a fresh template,
record it, and report that a compilation occurred (the `Bool`). -/
def cacheCall (c : CacheState) (k : CacheKey) : CacheState × Nat × Bool :=
  match c.entries.lookup k with
  | some tid => (c, tid, false)
  | Option.none => (⟨(k, c.nextId) :: c.entries, c.nextId + 1⟩, c.nextId, true)

/-- A constant in a compiled code object: a string (possibly a
placeholder name embedded by `{name!r}`) or a non-string value. -/
inductive Const where
  | str (s : String)
  | val (v : Value)
deriving DecidableEq

/-- A compiled function object: the code object's name tables
(`co_names`, `co_varnames`, `co_consts`) and the function's
`__defaults__` and `__kwdefaults__`. -/
structure FuncObj where
  co_names : List String
  co_varnames : List String
  co_consts : List Const
  defaults : List Value
  kwdefaults : List (String × Value)
deriving DecidableEq

/-- `fields.get(x, x)`: rename `x` when the mapping has it, else keep it. -/
def fget (fields : List (String × String)) (x : String) : String :=
  (fields.lookup x).getD x

/-- The body of `patch_fields` from the source: build a new function
object whose `co_names`, `co_varnames` and string `co_consts` have every
placeholder renamed through the mapping, whose `__defaults__` is the
template's, and whose `__kwdefaults__` (when non-empty) is rebuilt with
renamed keys.  (The source looks kwdefaults keys up strictly; the
synthesizer always passes a mapping covering every placeholder, which
`fget` models.) -/
def patchFunc (func : FuncObj) (fields : List (String × String)) : FuncObj :=
  { co_names := func.co_names.map (fget fields)
  , co_varnames := func.co_varnames.map (fget fields)
  , co_consts := func.co_consts.map fun c =>
      match c with
      | Const.str s => Const.str (fget fields s)
      | Const.val v => Const.val v
  , defaults := func.defaults
  , kwdefaults :=
      if func.kwdefaults = [] then []
      else func.kwdefaults.map fun p => (fget fields p.1, p.2) }

/-- `patch_fields` as it acts on the heap of function objects: the store
holds every function object alive in the process; patching reads the
template at index `i`, allocates the renamed copy as a new object at the
end of the store, and returns its index.  Nothing assigns into any
pre-existing object. -/
def patch_fields (store : List FuncObj) (i : Fin store.length)
    (fields : List (String × String)) : List FuncObj × Nat :=
  (store ++ [patchFunc (store.get i) fields], store.length)

/-- How a method slot of a class is filled after synthesis. -/
inductive MethodImpl where
  | user
  | absent
  | synthesized (kind : MethodKind)
  | frozenGuard
deriving DecidableEq

/-- The description of a class as handed to `dataklass`: its name, its
resolved field names in declaration order (the merge `get_fields`
computes from the MRO), the resolved defaults keyed by field name, and
which relevant methods its own class dict defines. -/
structure ClassDict where
  name : String
  declFields : List String
  classDefaults : List (String × Value)
  hasInit : Bool
  hasRepr : Bool
  hasEq : Bool
  hasIter : Bool
  hasHash : Bool
  hasNew : Bool
  hasSetattr : Bool
  hasDelattr : Bool
deriving DecidableEq

/-- The options of `dataklass`. -/
structure Options where
  frozen : Bool
  iter : Bool
  hash : Bool
  keyword_repr : Bool
deriving DecidableEq

/-- A method slot of the class before synthesis touches it: the user's
own definition when the class dict has one, else the inherited default. -/
def inputSlot (has : Bool) : MethodImpl :=
  if has then MethodImpl.user else MethodImpl.absent

/-- The synthesized class: `__match_args__` and the final state of each
method slot. -/
structure SynthClass where
  name : String
  matchArgs : List String
  initSlot : MethodImpl
  reprSlot : MethodImpl
  eqSlot : MethodImpl
  iterSlot : MethodImpl
  hashSlot : MethodImpl
  newSlot : MethodImpl
  setattrSlot : MethodImpl
  delattrSlot : MethodImpl
deriving DecidableEq

/-- `dataklass` from the source, with the source's check-and-install
order: reject zero fields; install `__init__` unless user-defined or
frozen; under `frozen`, reject a user `__setattr__`/`__delattr__`, then
install `__new__` (unconditionally) and the two frozen guards; install
`__repr__` and `__eq__` unless user-defined; under `iter`/`hash`, reject
a user-defined method of the same name, else install it. -/
def dataklass (opts : Options) (cls : ClassDict) : Except String SynthClass :=
  if cls.declFields = [] then
    Except.error "dataklass must have at least one annotated field"
  else
    let initSlot :=
      if !cls.hasInit && !opts.frozen then MethodImpl.synthesized MethodKind.init
      else inputSlot cls.hasInit
    if opts.frozen && (cls.hasSetattr || cls.hasDelattr) then
      Except.error "dataklass(frozen=True) cannot use __setattr__ or __delattr__"
    else
      let newSlot :=
        if opts.frozen then MethodImpl.synthesized MethodKind.new
        else inputSlot cls.hasNew
      let setattrSlot :=
        if opts.frozen then MethodImpl.frozenGuard else inputSlot cls.hasSetattr
      let delattrSlot :=
        if opts.frozen then MethodImpl.frozenGuard else inputSlot cls.hasDelattr
      let reprSlot :=
        if !cls.hasRepr then
          MethodImpl.synthesized
            (if opts.keyword_repr then MethodKind.reprKeyword
             else MethodKind.reprPositional)
        else MethodImpl.user
      let eqSlot :=
        if !cls.hasEq then MethodImpl.synthesized MethodKind.eq
        else MethodImpl.user
      if opts.iter && cls.hasIter then
        Except.error "dataklass(iter=True) hides cls.__iter__"
      else
        let iterSlot :=
          if opts.iter then MethodImpl.synthesized MethodKind.iter
          else inputSlot cls.hasIter
        if opts.hash && cls.hasHash then
          Except.error "dataklass(hash=True) hides cls.__hash__"
        else
          let hashSlot :=
            if opts.hash then MethodImpl.synthesized MethodKind.hash
            else inputSlot cls.hasHash
          Except.ok
            { name := cls.name
            , matchArgs := cls.declFields
            , initSlot := initSlot
            , reprSlot := reprSlot
            , eqSlot := eqSlot
            , iterSlot := iterSlot
            , hashSlot := hashSlot
            , newSlot := newSlot
            , setattrSlot := setattrSlot
            , delattrSlot := delattrSlot }

/-- Decidable equality for `Except`, used to evaluate the model on
concrete inputs. -/
instance {ε α : Type} [DecidableEq ε] [DecidableEq α] : DecidableEq (Except ε α) := fun x y =>
  match x, y with
  | Except.ok a, Except.ok b =>
    if h : a = b then isTrue (by rw [h])
    else isFalse (by intro hh; cases hh; exact h rfl)
  | Except.ok _, Except.error _ => isFalse (by intro h; cases h)
  | Except.error _, Except.ok _ => isFalse (by intro h; cases h)
  | Except.error e, Except.error f =>
    if h : e = f then isTrue (by rw [h])
    else isFalse (by intro hh; cases hh; exact h rfl)

/-- The spec's keyword rendering, written as paired recursion over the
field names and values: each field name paired with the representation
of its value, in declaration order. -/
def specPairs : List String → List Value → List String
  | n :: ns, v :: vs => (n ++ "=" ++ reprValue v) :: specPairs ns vs
  | _, _ => []

/-- The spec's keyword-mode rendering form
`TypeName(field1=value1, field2=value2, ...)`. -/
def specKeywordRendering (tn : String) (ns : List String) (vs : List Value) : String :=
  tn ++ "(" ++ pyJoin ", " (specPairs ns vs) ++ ")"

/-- The spec's bare-positional rendering: each value's representation in
declaration order, without the names. -/
def specVals : List Value → List String
  | [] => []
  | v :: vs => reprValue v :: specVals vs

/-- The spec's bare-positional rendering form `TypeName(value1, ...)`. -/
def specPositionalRendering (tn : String) (vs : List Value) : String :=
  tn ++ "(" ++ pyJoin ", " (specVals vs) ++ ")"

theorem specPairs_eq_zip_map (ns : List String) (vs : List Value) :
    specPairs ns vs = (ns.zip vs).map fun nv => nv.1 ++ "=" ++ reprValue nv.2 := by
  induction ns generalizing vs with
  | nil => cases vs <;> rfl
  | cons n ns ih => cases vs with
    | nil => rfl
    | cons v vs => simp [specPairs, List.zip_cons_cons, ih]

theorem specVals_eq_map (vs : List Value) : specVals vs = vs.map reprValue := by
  induction vs with
  | nil => rfl
  | cons v vs ih => simp [specVals, ih]

theorem paramListAux_kw_all_kwOnly (ds : List (String × Value)) (fs : List String)
    (seen : Bool) : ∀ p ∈ param_list_aux ds fs seen true, Param.isPos p = false := by
  induction fs generalizing seen with
  | nil => intro p hp; cases hp
  | cons h rest ih =>
    intro p hp
    unfold param_list_aux at hp
    cases hl : ds.lookup h with
    | some d =>
      rw [hl] at hp
      simp only [if_pos rfl] at hp
      rcases List.mem_cons.mp hp with h1 | h1
      · subst h1; rfl
      · exact ih true p h1
    | none =>
      rw [hl] at hp
      simp only [Bool.not_true, Bool.and_false, Bool.false_eq_true, if_false] at hp
      rcases List.mem_cons.mp hp with h1 | h1
      · subst h1; rfl
      · exact ih seen p h1

theorem paramListAux_valid (ds : List (String × Value)) (fs : List String)
    (seen : Bool) : validSignatureGo (param_list_aux ds fs seen false) seen = true := by
  induction fs generalizing seen with
  | nil => rfl
  | cons h rest ih =>
    unfold param_list_aux
    cases hl : ds.lookup h with
    | some d =>
      simp only [if_neg (by simp : ¬False)]
      show validSignatureGo (Param.pos h (some d) :: param_list_aux ds rest true false) seen = true
      exact ih true
    | none =>
      cases seen with
      | true =>
        show validSignatureGo (Param.kwOnly h Option.none :: param_list_aux ds rest true true) true = true
        simp only [validSignatureGo]
        rw [List.all_eq_true]
        intro p hp
        simp [paramListAux_kw_all_kwOnly ds rest true p hp]
      | false =>
        show validSignatureGo (Param.pos h Option.none :: param_list_aux ds rest false false) false = true
        simp only [validSignatureGo, if_neg (by simp : ¬(False : Prop))]
        exact ih false

theorem paramListAux_kwOnly_of_flag (ds : List (String × Value)) (fs : List String)
    (seen kw : Bool) (n : String) (hflag : seen = true ∨ kw = true)
    (hmem : n ∈ fs) (hnd : ds.lookup n = Option.none) :
    isKwOnly (param_list_aux ds fs seen kw) n = true := by
  induction fs generalizing seen kw with
  | nil => cases hmem
  | cons h rest ih =>
    unfold param_list_aux
    rcases List.mem_cons.mp hmem with heq | hmem2
    · subst heq
      rw [hnd]
      cases kw with
      | true =>
        simp only [Bool.not_true, Bool.and_false, Bool.false_eq_true, if_false, if_pos rfl]
        simp [isKwOnly]
      | false =>
        rcases hflag with hs | hk
        · subst hs
          simp only [Bool.not_false, Bool.and_true, if_pos rfl]
          simp [isKwOnly]
        · cases hk
    · cases hl : ds.lookup h with
      | some d =>
        have tail := ih true kw (Or.inl rfl) hmem2
        cases kw with
        | true =>
          simp only [if_pos rfl, isKwOnly, Bool.or_eq_true, beq_iff_eq]
          exact Or.inr tail
        | false => simpa [isKwOnly] using tail
      | none =>
        cases kw with
        | true =>
          have tail := ih seen true (Or.inr rfl) hmem2
          simp only [Bool.not_true, Bool.and_false, Bool.false_eq_true, if_false,
            if_pos rfl, isKwOnly, Bool.or_eq_true, beq_iff_eq]
          exact Or.inr tail
        | false =>
          cases seen with
          | true =>
            have tail := ih true true (Or.inl rfl) hmem2
            simp only [Bool.not_false, Bool.and_true, if_pos rfl, isKwOnly,
              Bool.or_eq_true, beq_iff_eq]
            exact Or.inr tail
          | false =>
            have tail := ih false false (by rcases hflag with h1 | h1 <;> cases h1) hmem2
            simpa [isKwOnly] using tail

theorem paramListAux_kwOnly_after_default (ds : List (String × Value))
    (pre post : List String) (n : String) (seen kw : Bool)
    (hm : ∃ m ∈ pre, (ds.lookup m).isSome = true)
    (hnd : ds.lookup n = Option.none) :
    isKwOnly (param_list_aux ds (pre ++ n :: post) seen kw) n = true := by
  revert hm
  induction pre generalizing seen kw with
  | nil =>
    intro hm
    rcases hm with ⟨m, hm1, _⟩
    cases hm1
  | cons h pre ih =>
    intro hm
    rcases hm with ⟨m, hm1, hm2⟩
    have hmemn : n ∈ pre ++ n :: post := List.mem_append_right _ (List.mem_cons_self n post)
    rcases List.mem_cons.mp hm1 with heq | hmem
    · rw [heq] at hm2
      cases hl : ds.lookup h with
      | none => rw [hl] at hm2; cases hm2
      | some d =>
        show isKwOnly (param_list_aux ds (h :: (pre ++ n :: post)) seen kw) n = true
        unfold param_list_aux
        rw [hl]
        have tail := paramListAux_kwOnly_of_flag ds (pre ++ n :: post) true kw n
          (Or.inl rfl) hmemn hnd
        cases kw with
        | true =>
          simp only [if_pos rfl, isKwOnly, Bool.or_eq_true, beq_iff_eq]
          exact Or.inr tail
        | false => simpa [isKwOnly] using tail
    · show isKwOnly (param_list_aux ds (h :: (pre ++ n :: post)) seen kw) n = true
      unfold param_list_aux
      cases hl : ds.lookup h with
      | some d =>
        have tail := ih true kw ⟨m, hmem, hm2⟩
        cases kw with
        | true =>
          simp only [if_pos rfl, isKwOnly, Bool.or_eq_true, beq_iff_eq]
          exact Or.inr tail
        | false => simpa [isKwOnly] using tail
      | none =>
        cases kw with
        | true =>
          have tail := ih seen true ⟨m, hmem, hm2⟩
          simp only [Bool.not_true, Bool.and_false, Bool.false_eq_true, if_false,
            if_pos rfl, isKwOnly, Bool.or_eq_true, beq_iff_eq]
          exact Or.inr tail
        | false =>
          cases seen with
          | true =>
            have tail := ih true true ⟨m, hmem, hm2⟩
            simp only [Bool.not_false, Bool.and_true, if_pos rfl, isKwOnly,
              Bool.or_eq_true, beq_iff_eq]
            exact Or.inr tail
          | false =>
            have tail := ih false false ⟨m, hmem, hm2⟩
            simpa [isKwOnly] using tail

/-- Claim C1, counterexample: the template cache is NOT keyed by
(method kind, arity) alone.  Two `__init__` template requests with the
same kind and the same field count but different default values (as two
record types with different defaults produce) miss the cache on the
second call: a second compilation occurs and a different template object
is returned. -/
theorem C1_counterexample :
    (CacheKey.mk MethodKind.init 3 [("_2", Value.int 1)]).kind =
        (CacheKey.mk MethodKind.init 3 [("_2", Value.int 2)]).kind ∧
      (CacheKey.mk MethodKind.init 3 [("_2", Value.int 1)]).numFields =
        (CacheKey.mk MethodKind.init 3 [("_2", Value.int 2)]).numFields ∧
      (cacheCall (cacheCall initCache (CacheKey.mk MethodKind.init 3 [("_2", Value.int 1)])).1
          (CacheKey.mk MethodKind.init 3 [("_2", Value.int 2)])).2.2 = true ∧
      (cacheCall (cacheCall initCache (CacheKey.mk MethodKind.init 3 [("_2", Value.int 1)])).1
          (CacheKey.mk MethodKind.init 3 [("_2", Value.int 2)])).2.1 ≠
        (cacheCall initCache (CacheKey.mk MethodKind.init 3 [("_2", Value.int 1)])).2.1 := by
  decide

/-- Claim C1, amended: the template cache compiles at most once per full
memoization key (method kind, arity, and — for the constructor kinds —
the defaults tuple): a repeated call with the identical full key returns
the identical already-compiled template object, leaves the cache
unchanged, and performs no second compilation.  Calls that differ only
in the defaults compile separately. -/
theorem C1_cache_hit_on_same_key (c : CacheState) (k : CacheKey) :
    cacheCall (cacheCall c k).1 k = ((cacheCall c k).1, (cacheCall c k).2.1, false) := by
  unfold cacheCall
  cases h : c.entries.lookup k with
  | some tid => simp [h]
  | none => simp [h]

/-- Claim C3: the synthesized equality is reflexive on every record
instance, and returns the distinguished `NotImplemented` whenever the two
operands' concrete classes differ — including an instance of a strict
subtype carrying identical field values. -/
theorem C3_eq_refl_and_cross_type (r a b : Instance) :
    dk_eq r r = EqResult.result true ∧
      (a.className ≠ b.className → dk_eq a b = EqResult.notImplemented) := by
  constructor
  · simp [dk_eq]
  · intro h
    simp [dk_eq, h]

/-- Witness for C3: a concrete instance equals itself, and comparing it
with a subtype instance holding identical field values yields
`NotImplemented`. -/
theorem C3_eq_refl_and_cross_type_witness :
    dk_eq (Instance.mk "Point" ["x", "y"] [Value.int 1, Value.int 2] 0)
        (Instance.mk "Point" ["x", "y"] [Value.int 1, Value.int 2] 0) =
      EqResult.result true ∧
    dk_eq (Instance.mk "Point" ["x", "y"] [Value.int 1, Value.int 2] 0)
        (Instance.mk "SubPoint" ["x", "y"] [Value.int 1, Value.int 2] 1) =
      EqResult.notImplemented :=
  ⟨(C3_eq_refl_and_cross_type
      (Instance.mk "Point" ["x", "y"] [Value.int 1, Value.int 2] 0)
      (Instance.mk "Point" ["x", "y"] [Value.int 1, Value.int 2] 0)
      (Instance.mk "SubPoint" ["x", "y"] [Value.int 1, Value.int 2] 1)).1,
   (C3_eq_refl_and_cross_type
      (Instance.mk "Point" ["x", "y"] [Value.int 1, Value.int 2] 0)
      (Instance.mk "Point" ["x", "y"] [Value.int 1, Value.int 2] 0)
      (Instance.mk "SubPoint" ["x", "y"] [Value.int 1, Value.int 2] 1)).2 (by decide)⟩

/-- Claim C4: two instances of the same record type whose field values
are equal in declaration order compare equal under the synthesized
equality, and the synthesized hash gives them the same hash value. -/
theorem C4_eq_implies_hash_eq (a b : Instance) (hc : a.className = b.className)
    (hv : a.values = b.values) :
    dk_eq a b = EqResult.result true ∧ dk_hash a = dk_hash b := by
  constructor
  · simp [dk_eq, hc, hv]
  · simp [dk_hash, hv]

/-- Witness for C4: two distinct concrete instances (different object
identities) of the same type with equal field values compare equal and
hash equal. -/
theorem C4_eq_implies_hash_eq_witness :
    dk_eq (Instance.mk "Point" ["x", "y"] [Value.int 1, Value.str "a"] 0)
        (Instance.mk "Point" ["x", "y"] [Value.int 1, Value.str "a"] 7) =
      EqResult.result true ∧
    dk_hash (Instance.mk "Point" ["x", "y"] [Value.int 1, Value.str "a"] 0) =
      dk_hash (Instance.mk "Point" ["x", "y"] [Value.int 1, Value.str "a"] 7) :=
  C4_eq_implies_hash_eq
    (Instance.mk "Point" ["x", "y"] [Value.int 1, Value.str "a"] 0)
    (Instance.mk "Point" ["x", "y"] [Value.int 1, Value.str "a"] 7)
    rfl rfl

/-- Claim C2, counterexample: for the field list
[a required, b default 1, e default 2, c required] — in which the
required field c follows the defaulted field b, so the claim's
premise holds — the field e comes after the first defaulted field b yet
is NOT keyword-only: the `*` marker is only inserted before c, and a
call passing e positionally succeeds. -/
theorem C2_counterexample :
    param_list ["a", "b", "e", "c"] [("b", Value.int 1), ("e", Value.int 2)] =
      [Param.pos "a" Option.none, Param.pos "b" (some (Value.int 1)),
        Param.pos "e" (some (Value.int 2)), Param.kwOnly "c" Option.none] ∧
    isKwOnly (param_list ["a", "b", "e", "c"] [("b", Value.int 1), ("e", Value.int 2)])
        "e" = false ∧
    bindArgs (param_list ["a", "b", "e", "c"] [("b", Value.int 1), ("e", Value.int 2)])
        [Value.int 5, Value.int 6, Value.int 7] [("c", Value.int 9)] =
      Except.ok [("a", Value.int 5), ("b", Value.int 6), ("e", Value.int 7),
        ("c", Value.int 9)] := by
  decide

/-- Claim C2, amended: the synthesized constructor never produces an
invalid (ordering-error) signature, and every field WITHOUT a default
that is preceded anywhere earlier in the declaration by a field with a
default becomes keyword-only; in particular, for
[a required, b default 1, c required], construct(5, c=9) yields
a=5, b=1, c=9 and passing c positionally is rejected.  (Defaulted fields
sitting between the first default and the first required-after-default
field remain positional-or-keyword.) -/
theorem C2_keyword_only_after_default
    (fields : List String) (defaults : List (String × Value))
    (pre post : List String) (n : String)
    (hsplit : fields = pre ++ n :: post)
    (hm : ∃ m ∈ pre, (defaults.lookup m).isSome = true)
    (hnd : defaults.lookup n = Option.none) :
    validSignature (param_list fields defaults) = true ∧
      isKwOnly (param_list fields defaults) n = true ∧
      dk_init "C" ["a", "b", "c"] [("b", Value.int 1)] 0 [Value.int 5]
          [("c", Value.int 9)] =
        Except.ok (Instance.mk "C" ["a", "b", "c"]
          [Value.int 5, Value.int 1, Value.int 9] 0) ∧
      bindArgs (param_list ["a", "b", "c"] [("b", Value.int 1)])
          [Value.int 5, Value.int 1, Value.int 9] [] =
        Except.error "too many positional arguments" := by
  refine ⟨paramListAux_valid defaults fields false, ?_, by decide, by decide⟩
  subst hsplit
  exact paramListAux_kwOnly_after_default defaults pre post n false false hm hnd

/-- Witness for C2 (amended) at the field list
[a required, b default 1, c required]: c is keyword-only, the signature
is valid, construct(5, c=9) produces a=5, b=1, c=9, and the positional
call is rejected. -/
theorem C2_keyword_only_after_default_witness :
    validSignature (param_list ["a", "b", "c"] [("b", Value.int 1)]) = true ∧
      isKwOnly (param_list ["a", "b", "c"] [("b", Value.int 1)]) "c" = true ∧
      dk_init "C" ["a", "b", "c"] [("b", Value.int 1)] 0 [Value.int 5]
          [("c", Value.int 9)] =
        Except.ok (Instance.mk "C" ["a", "b", "c"]
          [Value.int 5, Value.int 1, Value.int 9] 0) ∧
      bindArgs (param_list ["a", "b", "c"] [("b", Value.int 1)])
          [Value.int 5, Value.int 1, Value.int 9] [] =
        Except.error "too many positional arguments" :=
  C2_keyword_only_after_default ["a", "b", "c"] [("b", Value.int 1)]
    ["a", "b"] [] "c" rfl ⟨"b", by decide, by decide⟩ (by decide)

/-- Claim C5: on a frozen instance, every attribute write or delete
raises a catchable error whose message names the offending attribute and
never produces a modified instance; reading a bound field never raises;
and the frozen `__new__` succeeds, setting every field, despite the
guard. -/
theorem C5_frozen_immutability (inst : Instance) (m n : String) (w v : Value)
    (className : String) (fields : List String) (defaults : List (String × Value))
    (objId : Nat) (posArgs : List Value) (kwArgs : List (String × Value))
    (bound : List (String × Value))
    (hbind : bindArgs (param_list fields defaults) posArgs kwArgs = Except.ok bound)
    (hread : (inst.fieldNames.zip inst.values).lookup n = some v) :
    frozen_setattr inst m w =
        Except.error ("dataklass(frozen=True) cannot set attribute " ++ m) ∧
      frozen_delattr inst m =
        Except.error ("dataklass(frozen=True) cannot delete attribute " ++ m) ∧
      (∀ r : Instance, frozen_setattr inst m w ≠ Except.ok r) ∧
      (∀ r : Instance, frozen_delattr inst m ≠ Except.ok r) ∧
      py_getattr inst n = Except.ok v ∧
      dk_new className fields defaults objId posArgs kwArgs =
        Except.ok (Instance.mk className (bound.map Prod.fst)
          (bound.map Prod.snd) objId) := by
  refine ⟨rfl, rfl, ?_, ?_, ?_, ?_⟩
  · intro r h
    cases h
  · intro r h
    cases h
  · simp [py_getattr, hread]
  · simp [dk_new, hbind]

/-- Witness for C5: a concrete frozen Point(1, 2) is constructed with
both fields set; reading x yields 1; writing or deleting x raises the
immutability error naming x. -/
theorem C5_frozen_immutability_witness :
    frozen_setattr (Instance.mk "Point" ["x", "y"] [Value.int 1, Value.int 2] 0)
        "x" (Value.int 3) =
      Except.error ("dataklass(frozen=True) cannot set attribute " ++ "x") ∧
    frozen_delattr (Instance.mk "Point" ["x", "y"] [Value.int 1, Value.int 2] 0) "x" =
      Except.error ("dataklass(frozen=True) cannot delete attribute " ++ "x") ∧
    (∀ r : Instance,
      frozen_setattr (Instance.mk "Point" ["x", "y"] [Value.int 1, Value.int 2] 0)
        "x" (Value.int 3) ≠ Except.ok r) ∧
    (∀ r : Instance,
      frozen_delattr (Instance.mk "Point" ["x", "y"] [Value.int 1, Value.int 2] 0)
        "x" ≠ Except.ok r) ∧
    py_getattr (Instance.mk "Point" ["x", "y"] [Value.int 1, Value.int 2] 0) "x" =
      Except.ok (Value.int 1) ∧
    dk_new "Point" ["x", "y"] [] 0 [Value.int 1, Value.int 2] [] =
      Except.ok (Instance.mk "Point"
        ([("x", Value.int 1), ("y", Value.int 2)].map Prod.fst)
        ([("x", Value.int 1), ("y", Value.int 2)].map Prod.snd) 0) :=
  C5_frozen_immutability
    (Instance.mk "Point" ["x", "y"] [Value.int 1, Value.int 2] 0)
    "x" "x" (Value.int 3) (Value.int 1) "Point" ["x", "y"] [] 0
    [Value.int 1, Value.int 2] [] [("x", Value.int 1), ("y", Value.int 2)]
    (by decide) (by decide)

/-- Claim C6: each configuration error — zero declared fields, the iter
option on a class defining `__iter__`, the hash option on a class
defining `__hash__`, and frozen on a class defining `__setattr__` or
`__delattr__` — makes `dataklass` itself fail with an error, so the
error is raised at type-declaration time and no synthesized class is
produced. -/
theorem C6_config_errors_at_synthesis (opts : Options) (cls : ClassDict)
    (h : cls.declFields = [] ∨
      (opts.frozen = true ∧ (cls.hasSetattr = true ∨ cls.hasDelattr = true)) ∨
      (opts.iter = true ∧ cls.hasIter = true) ∨
      (opts.hash = true ∧ cls.hasHash = true)) :
    ∃ msg, dataklass opts cls = Except.error msg := by
  simp only [dataklass]
  split
  · exact ⟨_, rfl⟩
  · rename_i h0
    split
    · exact ⟨_, rfl⟩
    · rename_i h1
      split
      · exact ⟨_, rfl⟩
      · rename_i h2
        split
        · exact ⟨_, rfl⟩
        · rename_i h3
          exfalso
          rcases h with h | ⟨ha, hb⟩ | ⟨ha, hb⟩ | ⟨ha, hb⟩
          · exact h0 h
          · rcases hb with hb | hb
            · exact h1 (by simp [ha, hb])
            · exact h1 (by simp [ha, hb])
          · exact h2 (by simp [ha, hb])
          · exact h3 (by simp [ha, hb])

/-- Witness for C6: requesting iter=True on a class that already defines
`__iter__` makes `dataklass` fail. -/
theorem C6_config_errors_at_synthesis_witness :
    ∃ msg, dataklass (Options.mk false true false true)
        (ClassDict.mk "P" ["x"] [] false false false true false false false false) =
      Except.error msg :=
  C6_config_errors_at_synthesis (Options.mk false true false true)
    (ClassDict.mk "P" ["x"] [] false false false true false false false false)
    (Or.inr (Or.inr (Or.inl ⟨rfl, rfl⟩)))

/-- Claim C9, counterexample: with frozen=True on a class whose class
dict defines its own `__new__`, synthesis is NOT skipped for the
allocation-constructor kind: `dataklass` succeeds and installs its own
synthesized `__new__`, replacing the user's. -/
theorem C9_counterexample :
    dataklass (Options.mk true false false true)
        (ClassDict.mk "P" ["x"] [] false false false false false true false false) =
      Except.ok (SynthClass.mk "P" ["x"] MethodImpl.absent
        (MethodImpl.synthesized MethodKind.reprKeyword)
        (MethodImpl.synthesized MethodKind.eq) MethodImpl.absent MethodImpl.absent
        (MethodImpl.synthesized MethodKind.new) MethodImpl.frozenGuard
        MethodImpl.frozenGuard) ∧
      MethodImpl.synthesized MethodKind.new ≠ MethodImpl.user := by
  decide

/-- Claim C9, amended: for the `__init__`, `__repr__` and `__eq__`
kinds, a method defined in the class's own dict suppresses synthesis and
remains installed; the allocation-constructor (`__new__`) is overwritten
whenever frozen=True, and a user-defined `__iter__`/`__hash__` combined
with the matching option is a configuration error rather than a skip. -/
theorem C9_user_overrides_win (opts : Options) (cls : ClassDict) (c : SynthClass)
    (h : dataklass opts cls = Except.ok c) :
    (cls.hasInit = true → c.initSlot = MethodImpl.user) ∧
      (cls.hasRepr = true → c.reprSlot = MethodImpl.user) ∧
      (cls.hasEq = true → c.eqSlot = MethodImpl.user) := by
  simp only [dataklass] at h
  split at h
  · cases h
  · split at h
    · cases h
    · split at h
      · cases h
      · split at h
        · cases h
        · cases h
          refine ⟨?_, ?_, ?_⟩
          · intro hi
            simp [hi, inputSlot]
          · intro hr
            simp [hr]
          · intro he
            simp [he]

/-- Witness for C9 (amended): a class defining its own `__init__`,
`__repr__` and `__eq__` keeps all three after synthesis. -/
theorem C9_user_overrides_win_witness :
    (true = true →
      (SynthClass.mk "P" ["x"] MethodImpl.user MethodImpl.user MethodImpl.user
        MethodImpl.absent MethodImpl.absent MethodImpl.absent MethodImpl.absent
        MethodImpl.absent).initSlot = MethodImpl.user) ∧
    (true = true →
      (SynthClass.mk "P" ["x"] MethodImpl.user MethodImpl.user MethodImpl.user
        MethodImpl.absent MethodImpl.absent MethodImpl.absent MethodImpl.absent
        MethodImpl.absent).reprSlot = MethodImpl.user) ∧
    (true = true →
      (SynthClass.mk "P" ["x"] MethodImpl.user MethodImpl.user MethodImpl.user
        MethodImpl.absent MethodImpl.absent MethodImpl.absent MethodImpl.absent
        MethodImpl.absent).eqSlot = MethodImpl.user) :=
  C9_user_overrides_win (Options.mk false false false true)
    (ClassDict.mk "P" ["x"] [] true true true false false false false false)
    (SynthClass.mk "P" ["x"] MethodImpl.user MethodImpl.user MethodImpl.user
      MethodImpl.absent MethodImpl.absent MethodImpl.absent MethodImpl.absent
      MethodImpl.absent)
    (by decide)

/-- Claim C10: with the hash option off, synthesis leaves the class's
hash slot exactly as it was (user-defined or inherited), even though a
synthesized equality is installed when the class defines none; and under
the default identity-based hash, two distinct instances with equal field
values need not hash equal. -/
theorem C10_no_hash_unless_requested (opts : Options) (cls : ClassDict)
    (c : SynthClass) (hopt : opts.hash = false)
    (h : dataklass opts cls = Except.ok c) :
    c.hashSlot = inputSlot cls.hasHash ∧
      (cls.hasEq = false → c.eqSlot = MethodImpl.synthesized MethodKind.eq) ∧
      (∃ a b : Instance, a.className = b.className ∧ a.values = b.values ∧
        a ≠ b ∧ object_hash a ≠ object_hash b) := by
  simp only [dataklass] at h
  split at h
  · cases h
  · split at h
    · cases h
    · split at h
      · cases h
      · split at h
        · cases h
        · cases h
          refine ⟨by simp [hopt], ?_, ?_⟩
          · intro he
            simp [he]
          · exact ⟨Instance.mk "P" ["x"] [Value.int 1] 0,
              Instance.mk "P" ["x"] [Value.int 1] 1, rfl, rfl,
              by decide, by decide⟩

/-- Witness for C10: synthesizing with hash off on a class with no
user-defined hash leaves the hash slot at the inherited default while
equality is synthesized. -/
theorem C10_no_hash_unless_requested_witness :
    (SynthClass.mk "P" ["x"] (MethodImpl.synthesized MethodKind.init)
        (MethodImpl.synthesized MethodKind.reprKeyword)
        (MethodImpl.synthesized MethodKind.eq) MethodImpl.absent MethodImpl.absent
        MethodImpl.absent MethodImpl.absent MethodImpl.absent).hashSlot =
      inputSlot false ∧
    (false = false →
      (SynthClass.mk "P" ["x"] (MethodImpl.synthesized MethodKind.init)
        (MethodImpl.synthesized MethodKind.reprKeyword)
        (MethodImpl.synthesized MethodKind.eq) MethodImpl.absent MethodImpl.absent
        MethodImpl.absent MethodImpl.absent MethodImpl.absent).eqSlot =
      MethodImpl.synthesized MethodKind.eq) ∧
    (∃ a b : Instance, a.className = b.className ∧ a.values = b.values ∧
      a ≠ b ∧ object_hash a ≠ object_hash b) :=
  C10_no_hash_unless_requested (Options.mk false false false true)
    (ClassDict.mk "P" ["x"] [] false false false false false false false false)
    (SynthClass.mk "P" ["x"] (MethodImpl.synthesized MethodKind.init)
      (MethodImpl.synthesized MethodKind.reprKeyword)
      (MethodImpl.synthesized MethodKind.eq) MethodImpl.absent MethodImpl.absent
      MethodImpl.absent MethodImpl.absent MethodImpl.absent)
    rfl (by decide)

/-- Claim C7: specialization allocates a new function object and returns
its (fresh) index; every pre-existing function object in the store — the
shared template included, with its name tables, parameter names,
constants and defaults — is exactly as before, so record types
specializing the same cached template never affect each other. -/
theorem C7_specialize_never_mutates (store : List FuncObj)
    (i : Fin store.length) (fields : List (String × String)) :
    (patch_fields store i fields).1.take store.length = store ∧
      (patch_fields store i fields).2 = store.length ∧
      (patch_fields store i fields).2 ≠ i.val ∧
      (patch_fields store i fields).1.length = store.length + 1 ∧
      (patch_fields store i fields).1.getLast? =
        some (patchFunc (store.get i) fields) := by
  refine ⟨by simp [patch_fields], rfl, ?_, by simp [patch_fields],
    by simp [patch_fields]⟩
  exact Nat.ne_of_gt i.isLt

/-- Witness for C7 at a concrete one-template store and a concrete
placeholder mapping. -/
theorem C7_specialize_never_mutates_witness :
    (patch_fields [FuncObj.mk ["_1", "_2"] ["self", "_1", "_2"]
        [Const.str "_1"] [Value.int 1] []] ⟨0, Nat.zero_lt_one⟩
        [("_1", "x"), ("_2", "y")]).1.take 1 =
      [FuncObj.mk ["_1", "_2"] ["self", "_1", "_2"]
        [Const.str "_1"] [Value.int 1] []] ∧
    (patch_fields [FuncObj.mk ["_1", "_2"] ["self", "_1", "_2"]
        [Const.str "_1"] [Value.int 1] []] ⟨0, Nat.zero_lt_one⟩
        [("_1", "x"), ("_2", "y")]).2 = 1 ∧
    (patch_fields [FuncObj.mk ["_1", "_2"] ["self", "_1", "_2"]
        [Const.str "_1"] [Value.int 1] []] ⟨0, Nat.zero_lt_one⟩
        [("_1", "x"), ("_2", "y")]).2 ≠ 0 ∧
    (patch_fields [FuncObj.mk ["_1", "_2"] ["self", "_1", "_2"]
        [Const.str "_1"] [Value.int 1] []] ⟨0, Nat.zero_lt_one⟩
        [("_1", "x"), ("_2", "y")]).1.length = 2 ∧
    (patch_fields [FuncObj.mk ["_1", "_2"] ["self", "_1", "_2"]
        [Const.str "_1"] [Value.int 1] []] ⟨0, Nat.zero_lt_one⟩
        [("_1", "x"), ("_2", "y")]).1.getLast? =
      some (patchFunc (FuncObj.mk ["_1", "_2"] ["self", "_1", "_2"]
        [Const.str "_1"] [Value.int 1] []) [("_1", "x"), ("_2", "y")]) :=
  C7_specialize_never_mutates
    [FuncObj.mk ["_1", "_2"] ["self", "_1", "_2"]
      [Const.str "_1"] [Value.int 1] []]
    ⟨0, Nat.zero_lt_one⟩ [("_1", "x"), ("_2", "y")]

/-- Claim C8: for every record type and tuple of field values, the
keyword-mode representation is exactly the spec form
TypeName(field1=value1, ...) pairing each field name with its value's
representation in declaration order, and the bare-positional
representation is exactly TypeName(value1, ...) without the names. -/
theorem C8_repr_renders_fields (tn : String) (ns : List String)
    (vs : List Value) (oid : Nat) (h : ns.length = vs.length) :
    dk_repr_keyword (Instance.mk tn ns vs oid) = specKeywordRendering tn ns vs ∧
      dk_repr_positional (Instance.mk tn ns vs oid) =
        specPositionalRendering tn vs := by
  constructor
  · simp [dk_repr_keyword, specKeywordRendering, specPairs_eq_zip_map]
  · simp [dk_repr_positional, specPositionalRendering, specVals_eq_map]

/-- Witness for C8 at a concrete two-field instance. -/
theorem C8_repr_renders_fields_witness :
    dk_repr_keyword (Instance.mk "Point" ["x", "y"]
        [Value.int 1, Value.str "s"] 0) =
      specKeywordRendering "Point" ["x", "y"] [Value.int 1, Value.str "s"] ∧
    dk_repr_positional (Instance.mk "Point" ["x", "y"]
        [Value.int 1, Value.str "s"] 0) =
      specPositionalRendering "Point" [Value.int 1, Value.str "s"] :=
  C8_repr_renders_fields "Point" ["x", "y"] [Value.int 1, Value.str "s"] 0 rfl
